import Mathlib

/-!
Verification development for the vmstats repository (holiman/vmstats).

The repository derives per-opcode performance metrics from periodic
snapshots of cumulative EVM execution counters.  The definitions below are
a shallow embedding of the Go sources:

  * src/main.go            (the current generation of the tool)
  * src/unnamed/part_000   (two earlier generations of the same tool)

Machine integers are embedded as Nat / Int with explicit reduction
modulo 2^64 exactly where Go performs uint64 / int64 (time.Duration)
arithmetic.  Go float64 values produced by the two rate metrics are
embedded as exact rationals extended with the IEEE special values
(infinities and NaN); the operands of every division in the source are
conversions of integers, so zero-ness and sign of the operands, which is
all the settled claims depend on, are preserved exactly by this model.

Opcode identifiers and gas constants keep the names and values of the
go-ethereum packages (core/vm, params) that the source imports, at the
revision the repository builds against (pre-Istanbul geth with the
GasTable fee schedule).
-/

/-- Reduction modulo 2^64: the value of a Go uint64 expression. -/
def wrap64 (n : Nat) : Nat := n % 2 ^ 64

/-- Go uint64 subtraction `a - b` (wraps around on underflow). -/
def sub64 (a b : Nat) : Nat := (2 ^ 64 + a % 2 ^ 64 - b % 2 ^ 64) % 2 ^ 64

/-- Go uint64 multiplication `a * b` (wraps around on overflow). -/
def mul64 (a b : Nat) : Nat := (a * b) % 2 ^ 64

/-- Reduction of an integer into the int64 range: the value of a Go
int64 (`time.Duration`) expression. -/
def wrapInt64 (x : Int) : Int := (x + 2 ^ 63) % 2 ^ 64 - 2 ^ 63

/-- Go int64 subtraction `a - b` (wraps around on overflow). -/
def subInt64 (a b : Int) : Int := wrapInt64 (a - b)

/-- Exact model of the Go float64 values appearing in this program:
an exact rational, or one of the IEEE special values. -/
inductive GoFloat where
  | finite (q : ℚ)
  | inf
  | negInf
  | nan
deriving DecidableEq

/-- Model of Go float64 division for operands that are conversions of
integers: a nonzero divisor yields the exact rational quotient a / b
(formed with Rat.divInt), division by zero yields the IEEE special
values. -/
def fdiv (a b : Int) : GoFloat :=
  if b ≠ 0 then GoFloat.finite (Rat.divInt a b)
  else if 0 < a then GoFloat.inf
  else if a < 0 then GoFloat.negInf
  else GoFloat.nan

/-- Model of the Go float64 comparison `x > y` (false whenever either
operand is NaN). -/
def fgt : GoFloat → GoFloat → Bool := fun a b =>
  match a, b with
  | .nan, _ => false
  | _, .nan => false
  | .finite x, .finite y => decide (y < x)
  | .inf, .inf => false
  | .inf, _ => true
  | .negInf, _ => false
  | .finite _, .inf => false
  | .finite _, .negInf => true

namespace vm

/-! Opcode byte values of github.com/ethereum/go-ethereum/core/vm used by
the source, and the fixed gas step constants of that package. -/

def STOP : Nat := 0x00
def ADD : Nat := 0x01
def MUL : Nat := 0x02
def SUB : Nat := 0x03
def DIV : Nat := 0x04
def SDIV : Nat := 0x05
def MOD : Nat := 0x06
def SMOD : Nat := 0x07
def ADDMOD : Nat := 0x08
def MULMOD : Nat := 0x09
def SIGNEXTEND : Nat := 0x0b
def LT : Nat := 0x10
def GT : Nat := 0x11
def SLT : Nat := 0x12
def SGT : Nat := 0x13
def EQ : Nat := 0x14
def ISZERO : Nat := 0x15
def AND : Nat := 0x16
def OR : Nat := 0x17
def XOR : Nat := 0x18
def NOT : Nat := 0x19
def BYTE : Nat := 0x1a
def SHL : Nat := 0x1b
def SHR : Nat := 0x1c
def SAR : Nat := 0x1d
def ADDRESS : Nat := 0x30
def BALANCE : Nat := 0x31
def ORIGIN : Nat := 0x32
def CALLER : Nat := 0x33
def CALLVALUE : Nat := 0x34
def CALLDATASIZE : Nat := 0x36
def CODESIZE : Nat := 0x38
def GASPRICE : Nat := 0x3a
def EXTCODESIZE : Nat := 0x3b
def EXTCODECOPY : Nat := 0x3c
def EXTCODEHASH : Nat := 0x3f
def BLOCKHASH : Nat := 0x40
def COINBASE : Nat := 0x41
def TIMESTAMP : Nat := 0x42
def NUMBER : Nat := 0x43
def DIFFICULTY : Nat := 0x44
def GASLIMIT : Nat := 0x45
def POP : Nat := 0x50
def SLOAD : Nat := 0x54
def JUMP : Nat := 0x56
def JUMPI : Nat := 0x57
def PC : Nat := 0x58
def MSIZE : Nat := 0x59
def GAS : Nat := 0x5a
def JUMPDEST : Nat := 0x5b
def PUSH1 : Nat := 0x60
def PUSH32 : Nat := 0x7f
def DUP1 : Nat := 0x80
def DUP16 : Nat := 0x8f
def SWAP1 : Nat := 0x90
def SWAP16 : Nat := 0x9f
def CALL : Nat := 0xf1

def GasQuickStep : Nat := 2
def GasFastestStep : Nat := 3
def GasFastStep : Nat := 5
def GasMidStep : Nat := 8
def GasSlowStep : Nat := 10
def GasExtStep : Nat := 20

end vm

namespace params

/-! Fee-schedule data of github.com/ethereum/go-ethereum/params used by
the source: the versioned gas tables and the mainnet fork activation
heights (the latter also appear as chart annotations in src/main.go). -/

def JumpdestGas : Nat := 1

/-- Versioned fee table (params.GasTable).  Field order: ExtcodeSize,
ExtcodeCopy, Balance, SLoad, Calls, Suicide, ExpByte, ExtcodeHash. -/
structure GasTable where
  ExtcodeSize : Nat
  ExtcodeCopy : Nat
  Balance : Nat
  SLoad : Nat
  Calls : Nat
  Suicide : Nat
  ExpByte : Nat
  ExtcodeHash : Nat
deriving DecidableEq

def GasTableHomestead : GasTable := ⟨20, 20, 20, 50, 40, 0, 10, 0⟩

def GasTableEIP150 : GasTable := ⟨700, 700, 400, 200, 700, 5000, 10, 0⟩

def GasTableEIP158 : GasTable := ⟨700, 700, 400, 200, 700, 5000, 50, 0⟩

def GasTableConstantinople : GasTable := ⟨700, 700, 400, 200, 700, 5000, 50, 400⟩

/-- MainnetChainConfig.IsEIP150: the EIP-150 gas repricing fork is active
from mainnet height 2463000. -/
def isEIP150 (blnum : Nat) : Bool := 2463000 ≤ blnum

/-- MainnetChainConfig.IsEIP158: the EIP-158 state clearing fork is active
from mainnet height 2675000. -/
def isEIP158 (blnum : Nat) : Bool := 2675000 ≤ blnum

/-- MainnetChainConfig.IsConstantinople: the Constantinople fork is active
from mainnet height 7280000. -/
def isConstantinople (blnum : Nat) : Bool := 7280000 ≤ blnum

end params

/-- Fee-schedule version selection in gasCost (src/main.go lines 64-74):
`gt` starts as the Homestead table and is overwritten in order by each
fork table whose activation height is at or below the block height.  The
Go code binds one mutable local; the sequential overwrites are embedded
as shadowing lets. -/
def gasTableAt (blnum : Nat) : params.GasTable :=
  let gt := params.GasTableHomestead
  let gt := if params.isEIP150 blnum then params.GasTableEIP150 else gt
  let gt := if params.isEIP158 blnum then params.GasTableEIP158 else gt
  let gt := if params.isConstantinople blnum then params.GasTableConstantinople else gt
  gt

/-- gasCost (src/main.go lines 31-96): statically resolvable gas cost of
an opcode at a block height.  The first switch handles the fixed step
classes, the range tests handle the PUSH/SWAP/DUP families, and the final
switch resolves the fork-versioned costs through the selected gas table.
Every unhandled opcode falls through to the final `return 0`. -/
def gasCost (op : Nat) (blnum : Nat) : Nat :=
  if op = vm.STOP then 0
  else if op = vm.ADD ∨ op = vm.SUB ∨ op = vm.LT ∨ op = vm.GT ∨ op = vm.SLT ∨ op = vm.SGT ∨
      op = vm.EQ ∨ op = vm.ISZERO ∨ op = vm.AND ∨ op = vm.OR ∨ op = vm.XOR ∨ op = vm.NOT ∨
      op = vm.BYTE then vm.GasFastestStep
  else if op = vm.MUL ∨ op = vm.DIV ∨ op = vm.SDIV ∨ op = vm.MOD ∨ op = vm.SMOD ∨
      op = vm.SIGNEXTEND then vm.GasFastStep
  else if op = vm.ADDMOD ∨ op = vm.MULMOD ∨ op = vm.JUMP then vm.GasMidStep
  else if op = vm.ADDRESS ∨ op = vm.ORIGIN ∨ op = vm.CALLER ∨ op = vm.CALLVALUE ∨
      op = vm.CALLDATASIZE ∨ op = vm.CODESIZE ∨ op = vm.GASPRICE ∨ op = vm.COINBASE ∨
      op = vm.TIMESTAMP ∨ op = vm.NUMBER ∨ op = vm.DIFFICULTY ∨ op = vm.GASLIMIT ∨
      op = vm.POP ∨ op = vm.PC ∨ op = vm.MSIZE ∨ op = vm.GAS then vm.GasQuickStep
  else if op = vm.BLOCKHASH then vm.GasExtStep
  else if op = vm.JUMPI then vm.GasSlowStep
  else if op = vm.JUMPDEST then params.JumpdestGas
  else if vm.PUSH1 ≤ op ∧ op ≤ vm.PUSH32 then vm.GasFastestStep
  else if vm.SWAP1 ≤ op ∧ op ≤ vm.SWAP16 then vm.GasFastestStep
  else if vm.DUP1 ≤ op ∧ op ≤ vm.DUP16 then vm.GasFastestStep
  else if op = vm.SLOAD then (gasTableAt blnum).SLoad
  else if op = vm.EXTCODESIZE then (gasTableAt blnum).ExtcodeSize
  else if op = vm.BALANCE then (gasTableAt blnum).Balance
  else if op = vm.EXTCODEHASH then (gasTableAt blnum).ExtcodeHash
  else if op = vm.SHL ∨ op = vm.SHR ∨ op = vm.SAR then
    (if params.isConstantinople blnum then vm.GasFastestStep else 0)
  else if op = vm.CALL then (gasTableAt blnum).Calls
  else 0

/-- dataPoint (src/main.go lines 98-103): one opcode's cumulative counter
at one checkpoint, or a delta of two such counters.  `op` is the opcode
byte, `blockNumber` the checkpoint height (a non-negative big.Int),
`count` a uint64 invocation count and `execTime` a time.Duration (int64
nanoseconds). -/
structure dataPoint where
  op : Nat
  blockNumber : Nat
  count : Nat
  execTime : Int
deriving DecidableEq

/-- dataPoint.gas (src/main.go lines 105-107). -/
def dataPoint.gas (dp : dataPoint) : Nat := gasCost dp.op dp.blockNumber

/-- dataPoint.totalGas (src/main.go lines 108-110): uint64 product of the
invocation count and the resolved cost. -/
def dataPoint.totalGas (dp : dataPoint) : Nat := mul64 dp.count dp.gas

/-- dataPoint.MilliSecondsPerMgas (src/main.go lines 112-121): guarded
time-per-gas rate, exactly zero when totalGas is zero, otherwise
float64(1000*execTime) / float64(1000*totalGas) with both products taken
in the corresponding machine integer type. -/
def dataPoint.MilliSecondsPerMgas (dp : dataPoint) : GoFloat :=
  if dp.totalGas = 0 then GoFloat.finite 0
  else fdiv (wrapInt64 (1000 * dp.execTime)) (mul64 1000 dp.totalGas : Nat)

/-- dataPoint.mGasPerSec (src/unnamed/part_000 lines 104-110 and 353-359):
unguarded gas-per-time rate float64(1000*totalGas) / float64(execTime).
The data model of part_000 is identical to that of src/main.go; its
gasCost differs from the embedded one only on EXTCODECOPY and (in the
first generation) the pre-Constantinople shift opcodes, none of which the
claims about this function touch. -/
def dataPoint.mGasPerSec (dp : dataPoint) : GoFloat :=
  fdiv (mul64 1000 dp.totalGas : Nat) dp.execTime

/-- dataPoint.Sub (src/main.go lines 123-133): delta of two cumulative
data points, taken later-minus-earlier field-wise with the machine
subtraction of each field's Go type, keeping the later point's height.
A nil earlier point returns the later point unchanged. -/
def dataPoint.Sub (dp : dataPoint) (prev : Option dataPoint) : dataPoint :=
  match prev with
  | none => dp
  | some p => ⟨dp.op, dp.blockNumber, sub64 dp.count p.count, subInt64 dp.execTime p.execTime⟩

/-- statCollection (src/main.go lines 135-137): checkpoint data keyed by
block height.  The Go map is embedded as an association list with
distinct keys (collect writes each height once); a block is the total
table opcode -> dataPoint that collect (lines 144-165) fills for all 256
opcode slots. -/
structure statCollection where
  data : List (Nat × (Nat → dataPoint))

/-- Zero-valued dataPoint (the zero of the Go struct type). -/
def dpZero : dataPoint := ⟨0, 0, 0, 0⟩

/-- Lookup of one height's block in the collection (Go map indexing,
absent key gives nil). -/
def blockAt? (sc : statCollection) (n : Nat) : Option (Nat → dataPoint) :=
  (sc.data.find? (fun p => p.1 == n)).map Prod.snd

/-- Total lookup used on heights known to be present (every height in
scNumbers is a key of the map, so the default is never reached there). -/
def blockAt (sc : statCollection) (n : Nat) : Nat → dataPoint :=
  (blockAt? sc n).getD (fun _ => dpZero)

/-- Sorted key walk of the collection (src/main.go lines 173-177 and
201-208): collect the map keys and sort.Ints them ascending. -/
def scNumbers (sc : statCollection) : List Nat :=
  List.insertionSort (· ≤ ·) (sc.data.map Prod.fst)

/-- Wrapped uint64 count difference of one opcode between two heights of
the collection, as computed by Sub inside the series walk. -/
def countDelta (sc : statCollection) (op a b : Nat) : Nat :=
  sub64 ((blockAt sc b) op).count ((blockAt sc a) op).count

/-- Loop body of statCollection.series (src/main.go lines 180-197):
walk the sorted heights; heights below fromBlock are skipped without
becoming the previous block; the first kept height only seeds the
previous block; each later kept height emits an (x, y) point when the
interval's count delta exceeds 500 (the comment in the source says 1000).
The two parallel Go slices are built in lockstep and are embedded as a
pair of lists. -/
def seriesGo (sc : statCollection) (op fromBlock : Nat) (yFunc : dataPoint → GoFloat) :
    List Nat → Option (Nat → dataPoint) → List Nat × List GoFloat
  | [], _ => ([], [])
  | number :: rest, prevBlock =>
    if number < fromBlock then
      seriesGo sc op fromBlock yFunc rest prevBlock
    else
      match prevBlock with
      | none => seriesGo sc op fromBlock yFunc rest (some (blockAt sc number))
      | some prev =>
        let modDp := ((blockAt sc number) op).Sub (some (prev op))
        let tailRes := seriesGo sc op fromBlock yFunc rest (some (blockAt sc number))
        if 500 < modDp.count then (number :: tailRes.1, yFunc modDp :: tailRes.2)
        else tailRes

/-- statCollection.series (src/main.go lines 167-199): x values (heights,
exactly representable in float64 and kept as naturals here) and y values
of the chosen metric over consecutive kept checkpoint pairs. -/
def series (sc : statCollection) (op fromBlock : Nat) (yFunc : dataPoint → GoFloat) :
    List Nat × List GoFloat :=
  seriesGo sc op fromBlock yFunc (scNumbers sc) none

/-- Heights of the collection at or after fromBlock, in ascending order:
the heights the series walk keeps. -/
def keysFrom (sc : statCollection) (fromBlock : Nat) : List Nat :=
  (scNumbers sc).filter (fun n => fromBlock ≤ n)

/-- First-height block lookup in barchart (src/main.go lines 562-574):
a missing start block or a missing per-opcode entry is replaced by the
zero dataPoint (whose big.Int blockNumber is 0); since collect fills all
256 slots of a present block, only whole-block absence can occur. -/
def firstStatFn (sc : statCollection) (start : Nat) : Nat → dataPoint :=
  fun op =>
    match blockAt? sc start with
    | none => dpZero
    | some fs => fs op

/-- Value collection loop of barchart (src/main.go lines 561-598): for
each opcode 0..254, skip it when its execution count over the window is
smaller than the window's block span (fewer than one execution per
block), emit (opcode, MilliSecondsPerMgas of the window delta) when the
end count is positive.  A missing end block is the error return (Go hits
the nil dpEnd on the first opcode); the nil-blockNumber guard of the
source cannot fire for collect-built data and is not represented.  The
bar label (opcode name and cost) is represented by the opcode byte. -/
def barchartVals (sc : statCollection) (start e : Nat) : Except String (List (Nat × GoFloat)) :=
  match blockAt? sc e with
  | none => Except.error "data missing"
  | some lastStat =>
    Except.ok ((List.range 255).filterMap (fun op =>
      let dpStart := firstStatFn sc start op
      let dpEnd := lastStat op
      let nBlocks := sub64 (wrap64 dpEnd.blockNumber) (wrap64 dpStart.blockNumber)
      let nExecs := sub64 dpEnd.count dpStart.count
      if nExecs < nBlocks then none
      else if 0 < dpEnd.count then
        some (op, (dpEnd.Sub (some dpStart)).MilliSecondsPerMgas)
      else none))

/-- Post-condition of Go sort.Slice with less(i, j) = vals[i].Value >
vals[j].Value: no element strictly exceeds an earlier one. -/
def sortedByValueDesc (l : List (Nat × GoFloat)) : Prop :=
  l.Pairwise (fun a b => fgt b.2 a.2 = false)

/-- barchart output relation (src/main.go lines 540-608): the rendered
bar list is the first 25 entries of some permutation of the collected
values that satisfies the sort.Slice post-condition.  Go sort.Slice is
not guaranteed stable, so every such permutation is an admissible
outcome; the relation captures exactly what the code guarantees. -/
def barchartOutput (sc : statCollection) (start e : Nat) (out : List (Nat × GoFloat)) : Prop :=
  ∃ vals s, barchartVals sc start e = Except.ok vals ∧ s.Perm vals ∧
    sortedByValueDesc s ∧ out = s.take 25

deriving instance DecidableEq for Except

/-- Claim C1 counterexample: dataPoint.Sub gives the caller no flag and no
error on a restart.  A restart pair (later raw count 5 after earlier raw
count 10) produces exactly the same dataPoint as a legitimate
non-decreasing pair, so the restart condition is not exposed: the wrapped
count delta 2^64 - 5 is indistinguishable from a genuine delta of that
size. -/
theorem c1_sub_restart_indistinguishable_cex :
    dataPoint.Sub ⟨1, 100, 5, 0⟩ (some ⟨1, 50, 10, 0⟩) =
      dataPoint.Sub ⟨1, 100, 18446744073709551611, 0⟩ (some ⟨1, 50, 0, 0⟩) ∧
    (5 : Nat) < 10 ∧ (0 : Nat) ≤ 18446744073709551611 := by
  decide

/-- Claim C1 (amended): when the later snapshot's raw count is smaller
than the earlier snapshot's, dataPoint.Sub silently emits the uint64
wrapped difference 2^64 - (earlier - later) in a plain dataPoint: the
value is positive (so not clamped to zero and, being unsigned, not
negative), and it coincides with the output of Sub on a legitimate
non-decreasing pair, so no flag or distinguished error exposes the
restart. -/
theorem c1_sub_wrapped_delta (dp prev : dataPoint) (hlt : dp.count < prev.count)
    (hb : prev.count < 2 ^ 64) :
    (dp.Sub (some prev)).count = 2 ^ 64 - (prev.count - dp.count) ∧
    0 < (dp.Sub (some prev)).count ∧
    ∃ c d : dataPoint, c.count ≤ d.count ∧ d.Sub (some c) = dp.Sub (some prev) := by
  have hcount : (dp.Sub (some prev)).count = 2 ^ 64 - (prev.count - dp.count) := by
    simp only [dataPoint.Sub, sub64]
    omega
  refine ⟨hcount, ?_, ?_⟩
  · rw [hcount]; omega
  · refine ⟨⟨dp.op, prev.blockNumber, 0, prev.execTime⟩,
      ⟨dp.op, dp.blockNumber, 2 ^ 64 - (prev.count - dp.count), dp.execTime⟩, by simp, ?_⟩
    have hc : sub64 (2 ^ 64 - (prev.count - dp.count)) 0 = sub64 dp.count prev.count := by
      simp only [sub64]
      omega
    simp only [dataPoint.Sub, hc]

theorem c1_sub_wrapped_delta_witness :
    ((dataPoint.mk 1 100 5 0).Sub (some ⟨1, 50, 10, 0⟩)).count = 2 ^ 64 - (10 - 5) ∧
    0 < ((dataPoint.mk 1 100 5 0).Sub (some ⟨1, 50, 10, 0⟩)).count ∧
    ∃ c d : dataPoint, c.count ≤ d.count ∧
      d.Sub (some c) = (dataPoint.mk 1 100 5 0).Sub (some ⟨1, 50, 10, 0⟩) :=
  c1_sub_wrapped_delta ⟨1, 100, 5, 0⟩ ⟨1, 50, 10, 0⟩ (by decide) (by decide)

/-- Claim C2 counterexample: gasCost returns the bare number 0 both for
EXTCODECOPY, whose cost the source itself marks as dynamic (the case is
commented out because the cost depends on stack values), and for STOP,
whose cost is legitimately zero, so a caller cannot tell the two apart. -/
theorem c2_sentinel_cex :
    gasCost vm.EXTCODECOPY 7280000 = gasCost vm.STOP 7280000 ∧
    gasCost vm.STOP 7280000 = 0 := by
  decide

/-- Claim C2 (amended): for inherently dynamic-cost operations gasCost
returns the plain value 0 with no accompanying flag, the same value it
returns for the legitimately zero-cost STOP, at every block height; the
sentinel is therefore not signalled distinctly from a legitimate zero
cost. -/
theorem c2_dynamic_cost_zero_unflagged (blnum : Nat) :
    gasCost vm.EXTCODECOPY blnum = 0 ∧ gasCost vm.STOP blnum = 0 ∧
    gasCost vm.EXTCODECOPY blnum = gasCost vm.STOP blnum := by
  refine ⟨rfl, rfl, rfl⟩

/-- Claim C3: for the storage-load operation SLOAD, gasCost resolves
through the gas table selected by the fork active at the block height:
the Homestead baseline 50 strictly before the EIP-150 gas-repricing
activation height 2463000, and the repriced 200 at and after it (the
later EIP-158 and Constantinople tables keep SLoad at 200). -/
theorem c3_sload_versioned (h : Nat) :
    (h < 2463000 → gasCost vm.SLOAD h = 50) ∧
    (2463000 ≤ h → gasCost vm.SLOAD h = 200) := by
  have hdef : gasCost vm.SLOAD h = (gasTableAt h).SLoad := rfl
  have h15 : params.isEIP150 h = decide (2463000 ≤ h) := rfl
  have h58 : params.isEIP158 h = decide (2675000 ≤ h) := rfl
  have hco : params.isConstantinople h = decide (7280000 ≤ h) := rfl
  constructor
  · intro hlt
    rw [hdef]
    simp only [gasTableAt, h15, h58, hco]
    rw [if_neg (by simp; omega), if_neg (by simp; omega), if_neg (by simp; omega)]
    rfl
  · intro hge
    rw [hdef]
    simp only [gasTableAt, h15, h58, hco]
    by_cases hc : 7280000 ≤ h
    · rw [if_pos (by simp [hc])]
      rfl
    · rw [if_neg (by simp [hc])]
      by_cases h8 : 2675000 ≤ h
      · rw [if_pos (by simp [h8])]
        rfl
      · rw [if_neg (by simp [h8]), if_pos (by simp [hge])]
        rfl

theorem c3_sload_versioned_witness :
    ((2462999 : Nat) < 2463000 ∧ gasCost vm.SLOAD 2462999 = 50) ∧
    ((2463000 : Nat) ≤ 2463000 ∧ gasCost vm.SLOAD 2463000 = 200) :=
  ⟨⟨by decide, (c3_sload_versioned 2462999).1 (by decide)⟩,
   ⟨by decide, (c3_sload_versioned 2463000).2 (by decide)⟩⟩

/-- Claim C4: when a delta's count is zero or its resolved gas cost is
zero, totalGas is zero and MilliSecondsPerMgas returns exactly the finite
value 0 through its guard: never an infinity, never NaN, never a fault. -/
theorem c4_zero_gas_guard (dp : dataPoint)
    (h : dp.count = 0 ∨ gasCost dp.op dp.blockNumber = 0) :
    dp.MilliSecondsPerMgas = GoFloat.finite 0 := by
  have htg : dp.totalGas = 0 := by
    rcases h with h | h <;>
      simp only [dataPoint.totalGas, dataPoint.gas, mul64, h, Nat.zero_mul, Nat.mul_zero,
        Nat.zero_mod]
  simp only [dataPoint.MilliSecondsPerMgas, htg, if_pos]

theorem c4_zero_gas_guard_witness :
    ((dataPoint.mk 1 9000000 0 5000).count = 0 ∨
      gasCost (dataPoint.mk 1 9000000 0 5000).op (dataPoint.mk 1 9000000 0 5000).blockNumber = 0) ∧
    (dataPoint.mk 1 9000000 0 5000).MilliSecondsPerMgas = GoFloat.finite 0 :=
  ⟨Or.inl rfl, c4_zero_gas_guard ⟨1, 9000000, 0, 5000⟩ (Or.inl rfl)⟩

/-- Claim C5 counterexample: on a data point with zero elapsed time and a
positive count, mGasPerSec silently performs the division and returns the
IEEE quotient +Inf: it neither fails nor returns a designated sentinel. -/
theorem c5_mgaspersec_div_zero_cex :
    dataPoint.mGasPerSec ⟨1, 0, 1, 0⟩ = GoFloat.inf := by
  decide

/-- Claim C5 (amended): mGasPerSec has no zero guard; on any data point
whose elapsed time is zero it silently divides, yielding +Inf when the
(wrapped, float-converted) total gas numerator is positive and NaN when
it is zero. -/
theorem c5_mgaspersec_unguarded (dp : dataPoint) (h : dp.execTime = 0) :
    dp.mGasPerSec = GoFloat.inf ∨ dp.mGasPerSec = GoFloat.nan := by
  unfold dataPoint.mGasPerSec fdiv
  rw [h, if_neg (by norm_num)]
  rcases Nat.eq_zero_or_pos (mul64 1000 dp.totalGas) with hz | hp
  · right
    rw [hz]
    norm_num
  · left
    rw [if_pos (by exact_mod_cast hp)]

theorem c5_mgaspersec_unguarded_witness :
    (dataPoint.mk 1 0 1 0).execTime = 0 ∧
    ((dataPoint.mk 1 0 1 0).mGasPerSec = GoFloat.inf ∨
      (dataPoint.mk 1 0 1 0).mGasPerSec = GoFloat.nan) :=
  ⟨rfl, c5_mgaspersec_unguarded ⟨1, 0, 1, 0⟩ rfl⟩

/-- Claim C6: for two data points of the same dataset with non-decreasing
in-range counters, Sub computes exact later-minus-earlier differences of
the count and of the execution time, and the delta carries the later
point's block height. -/
theorem c6_delta_correct (A B : dataPoint) (hc : A.count ≤ B.count) (hcb : B.count < 2 ^ 64)
    (ht0 : 0 ≤ A.execTime) (ht : A.execTime ≤ B.execTime) (htb : B.execTime < 2 ^ 63) :
    (B.Sub (some A)).count = B.count - A.count ∧
    (B.Sub (some A)).execTime = B.execTime - A.execTime ∧
    (B.Sub (some A)).blockNumber = B.blockNumber := by
  refine ⟨?_, ?_, rfl⟩
  · simp only [dataPoint.Sub, sub64]
    omega
  · simp only [dataPoint.Sub, subInt64, wrapInt64]
    omega

theorem c6_delta_correct_witness :
    ((dataPoint.mk 84 200 17 800).Sub (some ⟨84, 100, 10, 500⟩)).count = 17 - 10 ∧
    ((dataPoint.mk 84 200 17 800).Sub (some ⟨84, 100, 10, 500⟩)).execTime = 800 - 500 ∧
    ((dataPoint.mk 84 200 17 800).Sub (some ⟨84, 100, 10, 500⟩)).blockNumber =
      (dataPoint.mk 84 200 17 800).blockNumber :=
  c6_delta_correct ⟨84, 100, 10, 500⟩ ⟨84, 200, 17, 800⟩ (by decide) (by decide) (by decide)
    (by decide) (by decide)

/-- Claim C7: when the earlier point is absent (nil previous pointer),
Sub returns the later point itself, so the delta equals the later
snapshot's raw counters, treated as a delta from zero, rather than
failing. -/
theorem c7_sub_nil_prev (dp : dataPoint) :
    (dp.Sub none).count = dp.count ∧ (dp.Sub none).execTime = dp.execTime ∧
    dp.Sub none = dp :=
  ⟨rfl, rfl, rfl⟩

/-- Claim C8: every identifier of the push family (PUSH1..PUSH32, bytes
0x60..0x7f), the duplicate family (DUP1..DUP16, 0x80..0x8f) and the swap
family (SWAP1..SWAP16, 0x90..0x9f) resolves to the single class constant
GasFastestStep at every block height, regardless of which width or slot
in the family is queried.  The three families cover exactly the byte
range 0x60..0x9f. -/
theorem c8_range_fastest (op h : Nat) (h1 : vm.PUSH1 ≤ op) (h2 : op ≤ vm.SWAP16) :
    gasCost op h = vm.GasFastestStep := by
  simp only [vm.PUSH1, vm.SWAP16] at h1 h2
  interval_cases op <;> rfl

theorem c8_range_fastest_witness :
    (vm.PUSH1 ≤ 0x75 ∧ (0x75 : Nat) ≤ vm.SWAP16 ∧ gasCost 0x75 5000000 = vm.GasFastestStep) ∧
    (vm.PUSH1 ≤ 0x8a ∧ (0x8a : Nat) ≤ vm.SWAP16 ∧ gasCost 0x8a 0 = vm.GasFastestStep) ∧
    (vm.PUSH1 ≤ 0x9f ∧ (0x9f : Nat) ≤ vm.SWAP16 ∧ gasCost 0x9f 8000000 = vm.GasFastestStep) :=
  ⟨⟨by decide, by decide, c8_range_fastest 0x75 5000000 (by decide) (by decide)⟩,
   ⟨by decide, by decide, c8_range_fastest 0x8a 0 (by decide) (by decide)⟩,
   ⟨by decide, by decide, c8_range_fastest 0x9f 8000000 (by decide) (by decide)⟩⟩

/-- Heights below fromBlock are skipped without becoming the previous
block, so the walk behaves as if they were removed from the key list. -/
lemma seriesGo_skip (sc : statCollection) (op fromBlock : Nat) (yF : dataPoint → GoFloat)
    (l : List Nat) : ∀ prev, seriesGo sc op fromBlock yF l prev =
      seriesGo sc op fromBlock yF (l.filter (fun n => fromBlock ≤ n)) prev := by
  induction l with
  | nil => intro prev; rfl
  | cons n rest ih =>
    intro prev
    by_cases hn : n < fromBlock
    · rw [List.filter_cons_of_neg (by simp; omega)]
      have hL : seriesGo sc op fromBlock yF (n :: rest) prev =
          seriesGo sc op fromBlock yF rest prev := by
        simp only [seriesGo, if_pos hn]
      rw [hL]
      exact ih prev
    · rw [List.filter_cons_of_pos (by simp; omega)]
      cases prev with
      | none =>
        have hL : seriesGo sc op fromBlock yF (n :: rest) none =
            seriesGo sc op fromBlock yF rest (some (blockAt sc n)) := by
          simp only [seriesGo, if_neg hn]
        have hR : seriesGo sc op fromBlock yF
              (n :: rest.filter (fun m => fromBlock ≤ m)) none =
            seriesGo sc op fromBlock yF (rest.filter (fun m => fromBlock ≤ m))
              (some (blockAt sc n)) := by
          simp only [seriesGo, if_neg hn]
        rw [hL, hR]
        exact ih _
      | some prevB =>
        simp only [seriesGo, if_neg hn]
        rw [ih]

/-- With a seeded previous block taken from height a and no skippable
heights left, the x output of the walk is exactly the second components
of the consecutive height pairs of (a :: l) whose count delta exceeds
500. -/
lemma seriesGo_pairs (sc : statCollection) (op fromBlock : Nat) (yF : dataPoint → GoFloat)
    (l : List Nat) : ∀ a, (∀ n ∈ l, fromBlock ≤ n) →
    (seriesGo sc op fromBlock yF l (some (blockAt sc a))).1 =
      (((a :: l).zip l).filter (fun p => 500 < countDelta sc op p.1 p.2)).map Prod.snd := by
  induction l with
  | nil => intro a _; rfl
  | cons n rest ih =>
    intro a hall
    have hn : ¬ n < fromBlock := by
      have := hall n (List.mem_cons_self n rest)
      omega
    have hrest : ∀ m ∈ rest, fromBlock ≤ m := fun m hm => hall m (List.mem_cons_of_mem _ hm)
    simp only [seriesGo, if_neg hn]
    rw [List.zip_cons_cons]
    simp only [show ((blockAt sc n op).Sub (some (blockAt sc a op))).count =
      countDelta sc op a n from rfl]
    by_cases hc : 500 < countDelta sc op a n
    · rw [List.filter_cons_of_pos (by simpa using hc), if_pos hc, List.map_cons]
      exact congrArg (List.cons n) (ih n hrest)
    · rw [List.filter_cons_of_neg (by simpa using hc), if_neg hc]
      exact ih n hrest

/-- Start of the walk: the first kept height only seeds the previous
block, so the output over l is the output over the consecutive pairs of
l. -/
lemma seriesGo_none_pairs (sc : statCollection) (op fromBlock : Nat) (yF : dataPoint → GoFloat)
    (l : List Nat) (hall : ∀ n ∈ l, fromBlock ≤ n) :
    (seriesGo sc op fromBlock yF l none).1 =
      ((l.zip l.tail).filter (fun p => 500 < countDelta sc op p.1 p.2)).map Prod.snd := by
  cases l with
  | nil => rfl
  | cons n rest =>
    have hn : ¬ n < fromBlock := by
      have := hall n (List.mem_cons_self n rest)
      omega
    have hL : seriesGo sc op fromBlock yF (n :: rest) none =
        seriesGo sc op fromBlock yF rest (some (blockAt sc n)) := by
      simp only [seriesGo, if_neg hn]
    rw [hL]
    exact seriesGo_pairs sc op fromBlock yF rest n
      (fun m hm => hall m (List.mem_cons_of_mem _ hm))

/-- The x output of statCollection.series is the second components of
the consecutive kept height pairs whose count delta exceeds 500. -/
lemma series_eq_pairs (sc : statCollection) (op fromBlock : Nat) (yF : dataPoint → GoFloat) :
    (series sc op fromBlock yF).1 =
      (((keysFrom sc fromBlock).zip (keysFrom sc fromBlock).tail).filter
        (fun p => 500 < countDelta sc op p.1 p.2)).map Prod.snd := by
  unfold series keysFrom
  rw [seriesGo_skip]
  exact seriesGo_none_pairs sc op fromBlock yF _
    (fun n hn => by simpa using (List.mem_filter.mp hn).2)

/-- Claim C9 (amended): for a collection with distinct heights, the
series walk emits a point for a height b if and only if b is the later
height of some consecutive kept pair (heights at or after fromBlock, in
ascending order) whose interval count delta strictly exceeds the fixed
constant 500 hard-coded in the source (the threshold is not a caller
parameter, and the adjacent source comment says 1000), and the emitted x
values are strictly ascending in height. -/
theorem c9_series_threshold_sorted (sc : statCollection) (op fromBlock : Nat)
    (yF : dataPoint → GoFloat) (hnd : (sc.data.map Prod.fst).Nodup) :
    (series sc op fromBlock yF).1.Pairwise (· < ·) ∧
    ∀ b, b ∈ (series sc op fromBlock yF).1 ↔
      ∃ a, (a, b) ∈ (keysFrom sc fromBlock).zip (keysFrom sc fromBlock).tail ∧
        500 < countDelta sc op a b := by
  have hsorted : (scNumbers sc).Pairwise (· < ·) := by
    have hs : List.Sorted (· ≤ ·) (scNumbers sc) := List.sorted_insertionSort _ _
    have hperm : (scNumbers sc).Perm (sc.data.map Prod.fst) := List.perm_insertionSort _ _
    have hnd2 : (scNumbers sc).Nodup := hperm.nodup_iff.mpr hnd
    exact hs.lt_of_le hnd2
  have hkeys : (keysFrom sc fromBlock).Pairwise (· < ·) := hsorted.filter _
  constructor
  · rw [series_eq_pairs]
    have h1 : List.Sublist ((((keysFrom sc fromBlock).zip (keysFrom sc fromBlock).tail).filter
        (fun p => 500 < countDelta sc op p.1 p.2)).map Prod.snd)
        (((keysFrom sc fromBlock).zip (keysFrom sc fromBlock).tail).map Prod.snd) :=
      (List.filter_sublist _).map _
    have h2 : (((keysFrom sc fromBlock).zip (keysFrom sc fromBlock).tail).map Prod.snd) =
        (keysFrom sc fromBlock).tail :=
      List.map_snd_zip _ _ (by rw [List.length_tail]; omega)
    rw [h2] at h1
    exact List.Pairwise.sublist (h1.trans (List.tail_sublist _)) hkeys
  · intro b
    rw [series_eq_pairs, List.mem_map]
    constructor
    · rintro ⟨⟨a, b2⟩, hmem, hsnd⟩
      rw [List.mem_filter] at hmem
      cases hsnd
      exact ⟨a, hmem.1, by simpa using hmem.2⟩
    · rintro ⟨a, hmem, hc⟩
      exact ⟨(a, b), List.mem_filter.mpr ⟨hmem, by simpa using hc⟩, rfl⟩

/-- Constant metric used by the concrete series instances. -/
def yZero : dataPoint → GoFloat := fun _ => GoFloat.finite 0

/-- Concrete two-checkpoint collection for the series claim: heights 0
and 1; opcode 1 (ADD) is executed 700 times in the interval, every other
counter stays zero. -/
def scC9 : statCollection :=
  ⟨[(0, fun o => ⟨o, 0, 0, 0⟩),
    (1, fun o => if o = 1 then ⟨1, 1, 700, 1400⟩ else ⟨o, 1, 0, 0⟩)]⟩

theorem c9_series_threshold_sorted_witness :
    (scC9.data.map Prod.fst).Nodup ∧
    ((series scC9 1 0 yZero).1.Pairwise (· < ·) ∧
    ∀ b, b ∈ (series scC9 1 0 yZero).1 ↔
      ∃ a, (a, b) ∈ (keysFrom scC9 0).zip (keysFrom scC9 0).tail ∧
        500 < countDelta scC9 1 a b) :=
  ⟨by decide, c9_series_threshold_sorted scC9 1 0 yZero (by decide)⟩

/-- Claim C9 counterexample: the activity threshold is not caller
supplied; with the interval count delta 700 for opcode 1, the walk does
emit the point at height 1 even though 700 does not exceed 1000, the
threshold the source comment documents (and a threshold a caller could
reasonably supply), because the hard-coded cutoff is 500. -/
theorem c9_threshold_cex :
    countDelta scC9 1 0 1 = 700 ∧ (series scC9 1 0 yZero).1 = [1] ∧
    ¬ (1000 < (700 : Nat)) := by
  decide

/-- Claim C10 (amended): every bar list the barchart code can render is
sorted non-increasingly by metric value (the sort.Slice post-condition:
no later value strictly exceeds an earlier one; the order of equal values
is not determined, sort.Slice being unstable and no tie-break key being
compared), is truncated to at most 25 entries, and contains only
operations that passed the activity exclusion: executed at least once
per block of the window and with a positive end count. -/
theorem c10_barchart_sorted_truncated (sc : statCollection) (start e : Nat)
    (out : List (Nat × GoFloat)) (hout : barchartOutput sc start e out) :
    sortedByValueDesc out ∧ out.length ≤ 25 ∧
    ∀ p ∈ out, ∃ lastStat, blockAt? sc e = some lastStat ∧
      ¬ (sub64 (lastStat p.1).count (firstStatFn sc start p.1).count <
          sub64 (wrap64 (lastStat p.1).blockNumber)
            (wrap64 (firstStatFn sc start p.1).blockNumber)) ∧
      0 < (lastStat p.1).count := by
  obtain ⟨vals, s, hvals, hperm, hsort, ho⟩ := hout
  subst ho
  unfold sortedByValueDesc at hsort ⊢
  refine ⟨List.Pairwise.sublist (List.take_sublist _ _) hsort, ?_, ?_⟩
  · rw [List.length_take]
    omega
  · intro p hp
    have hps : p ∈ s := (List.take_sublist _ _).subset hp
    have hpv : p ∈ vals := hperm.mem_iff.mp hps
    unfold barchartVals at hvals
    cases hb : blockAt? sc e with
    | none =>
      rw [hb] at hvals
      cases hvals
    | some lastStat =>
      rw [hb] at hvals
      injection hvals with hvals
      subst hvals
      rw [List.mem_filterMap] at hpv
      obtain ⟨op2, _, hf⟩ := hpv
      refine ⟨lastStat, rfl, ?_⟩
      simp only at hf
      split at hf
      · cases hf
      · split at hf
        · rename_i hfreq hcnt
          injection hf with hf
          cases hf
          exact ⟨hfreq, hcnt⟩
        · cases hf

/-- Concrete two-checkpoint collection for the barchart claim: window
from height 0 to height 1; opcodes 1 (ADD) and 3 (SUB) are each executed
1000 times taking 3000 ns, every other counter stays zero, so the two
bars carry the identical value 1 millisecond per Mgas. -/
def scC10 : statCollection :=
  ⟨[(0, fun o => ⟨o, 0, 0, 0⟩),
    (1, fun o => if o = 1 ∨ o = 3 then ⟨o, 1, 1000, 3000⟩ else ⟨o, 1, 0, 0⟩)]⟩

set_option maxRecDepth 10000 in
theorem c10_barchart_sorted_truncated_witness :
    barchartOutput scC10 0 1 [(1, GoFloat.finite 1), (3, GoFloat.finite 1)] ∧
    (sortedByValueDesc [(1, GoFloat.finite 1), (3, GoFloat.finite 1)] ∧
    ([(1, GoFloat.finite 1), (3, GoFloat.finite 1)] : List (Nat × GoFloat)).length ≤ 25 ∧
    ∀ p ∈ [(1, GoFloat.finite 1), (3, GoFloat.finite 1)], ∃ lastStat,
      blockAt? scC10 1 = some lastStat ∧
      ¬ (sub64 (lastStat p.1).count (firstStatFn scC10 0 p.1).count <
          sub64 (wrap64 (lastStat p.1).blockNumber)
            (wrap64 (firstStatFn scC10 0 p.1).blockNumber)) ∧
      0 < (lastStat p.1).count) :=
  have hout : barchartOutput scC10 0 1 [(1, GoFloat.finite 1), (3, GoFloat.finite 1)] :=
    ⟨[(1, GoFloat.finite 1), (3, GoFloat.finite 1)],
     [(1, GoFloat.finite 1), (3, GoFloat.finite 1)], by decide, List.Perm.refl _,
     by unfold sortedByValueDesc; decide, rfl⟩
  ⟨hout, c10_barchart_sorted_truncated scC10 0 1 _ hout⟩

set_option maxRecDepth 10000 in
/-- Claim C10 counterexample: on a window with two tied bars, the code
determines no order between them: both orders satisfy everything the
collection loop and sort.Slice guarantee, and in one of them the tie is
not in ascending opcode order, so ties are not broken by a deterministic
key and repeated runs are not forced to a single order by the code's
contract. -/
theorem c10_tie_order_cex :
    barchartOutput scC10 0 1 [(1, GoFloat.finite 1), (3, GoFloat.finite 1)] ∧
    barchartOutput scC10 0 1 [(3, GoFloat.finite 1), (1, GoFloat.finite 1)] ∧
    ([(1, GoFloat.finite 1), (3, GoFloat.finite 1)] : List (Nat × GoFloat)) ≠
      [(3, GoFloat.finite 1), (1, GoFloat.finite 1)] :=
  ⟨⟨[(1, GoFloat.finite 1), (3, GoFloat.finite 1)],
    [(1, GoFloat.finite 1), (3, GoFloat.finite 1)], by decide, List.Perm.refl _,
    by unfold sortedByValueDesc; decide, rfl⟩,
   ⟨[(1, GoFloat.finite 1), (3, GoFloat.finite 1)],
    [(3, GoFloat.finite 1), (1, GoFloat.finite 1)], by decide, List.Perm.swap _ _ _,
    by unfold sortedByValueDesc; decide, rfl⟩,
   by decide⟩
